import Mathlib

/-!
Shallow embedding of the volunteer-activity matcher (`src/app.py`).

The Python program keeps a single in-memory document
`{"users": [...], "activities": [...]}`, persisted to a JSON file on every
mutation. We model the document as `Store`, the pair of in-memory document
and persisted file as `AppState`, and translate each registry operation
(`add_activity`, `register_user`, `match_activities`,
`register_for_activity`, `list_activities`, `list_user_activities`, and the
inline cancel-registration handler) into a Lean function over `AppState`.

Python idioms are embedded as follows:
* `next((x for x in xs if x["id"] == i), None)` becomes `xs.find? (·.id == i)`;
* mutation of the object returned by `next` becomes `updateFirst`, which
  rewrites the first list element satisfying the predicate;
* `list.remove(x)` (remove first occurrence) becomes `List.erase`;
* `needle in haystack` on strings (substring test, with the empty string a
  substring of everything) becomes `strContains`;
* `str.lower()` becomes `strLower` (ASCII lowering; identity on CJK, as in
  Python for the strings this program handles);
* `datetime.strptime(s, "%Y-%m-%d")` becomes `parseDate` (4-digit year ≥ 1,
  1–2 digit month 1–12, 1–2 digit day bounded by the month length, nothing
  else in the string); `.strftime("%A")` becomes `weekdayName`, computed from
  the proleptic-Gregorian ordinal exactly as CPython's `date.weekday` is;
* an exception escaping `match_activities` (the `strptime` `ValueError`)
  becomes the `Except.error` branch of the translated loop.
-/

namespace VolunteerApp

/-- User record, mirroring the dict built by `register_user` in `src/app.py`. -/
structure User where
  id : Nat
  name : String
  location : String
  preferred_categories : List String
  available_days : List String
  registered_activities : List Nat
deriving DecidableEq

/-- Activity record, mirroring the dict built by `add_activity` in `src/app.py`. -/
structure Activity where
  id : Nat
  name : String
  category : String
  location : String
  date : String
  time_range : String
  description : String
  participants : List Nat
deriving DecidableEq

/-- The in-memory document `self.data`: two collections, `users` and `activities`. -/
structure Store where
  users : List User
  activities : List Activity
deriving DecidableEq

/-- State of the backing JSON file `volunteer_data.json`: missing, present but
unparseable, or holding a stored document. -/
inductive FileState where
  | absent : FileState
  | corrupt : FileState
  | saved : Store → FileState
deriving DecidableEq

/-- Full state of a `VolunteerActivityMatcher`: the in-memory document plus the
persisted file. -/
structure AppState where
  data : Store
  file : FileState
deriving DecidableEq

/-- Embedding of `_load_data`: the stored document if the file exists and
parses, otherwise the empty document; the `Bool` records whether the
corrupt-file warning (`st.error`) was shown. No branch raises. -/
def load_data : FileState → Store × Bool
  | .saved d => (d, false)
  | .corrupt => ({ users := [], activities := [] }, true)
  | .absent => ({ users := [], activities := [] }, false)

/-- Embedding of `_save_data`: write the in-memory document to the file. -/
def save_data (d : Store) : AppState := { data := d, file := .saved d }

/-- Rewrite the first element satisfying `p` with `f`, leaving the rest alone.
This is how mutating the object returned by Python's `next(...)` acts on the
containing list. -/
def updateFirst (p : α → Bool) (f : α → α) : List α → List α
  | [] => []
  | x :: xs => if p x then f x :: xs else x :: updateFirst p f xs

/-- Embedding of `add_activity`: assign id `len(activities) + 1`, append with
empty participants, persist, return the created record. -/
def add_activity (st : AppState) (name category location date time_range description : String) :
    Activity × AppState :=
  let activity : Activity :=
    { id := st.data.activities.length + 1, name := name, category := category,
      location := location, date := date, time_range := time_range,
      description := description, participants := [] }
  let d : Store := { users := st.data.users, activities := st.data.activities ++ [activity] }
  (activity, save_data d)

/-- Embedding of `register_user`: assign id `len(users) + 1`, append with empty
`registered_activities`, persist, return the created record. -/
def register_user (st : AppState) (name location : String)
    (preferred_categories available_days : List String) : User × AppState :=
  let user : User :=
    { id := st.data.users.length + 1, name := name, location := location,
      preferred_categories := preferred_categories, available_days := available_days,
      registered_activities := [] }
  let d : Store := { users := st.data.users ++ [user], activities := st.data.activities }
  (user, save_data d)

/-- ASCII case-lowering of a string, the effect of Python's `.lower()` on the
day labels and weekday names this program compares. -/
def strLower (s : String) : String := ⟨s.data.map Char.toLower⟩

/-- Does `needle` occur at the head of `hay`? -/
def leadMatch : List Char → List Char → Bool
  | [], _ => true
  | _ :: _, [] => false
  | c :: cs, d :: ds => c == d && leadMatch cs ds

/-- Does `needle` occur contiguously anywhere in `hay`? The empty needle
always does, as with Python's `"" in s`. -/
def containsSub (needle : List Char) : List Char → Bool
  | [] => needle.isEmpty
  | d :: ds => leadMatch needle (d :: ds) || containsSub needle ds

/-- Embedding of Python's `needle in hay` substring test. -/
def strContains (hay needle : String) : Bool := containsSub needle.data hay.data

/-- The `chinese_days` dict of `match_activities`: the seven Chinese day
labels and their English weekday names. -/
def chinese_days (d : String) : Option String :=
  if d = "周一" then some "Monday"
  else if d = "周二" then some "Tuesday"
  else if d = "周三" then some "Wednesday"
  else if d = "周四" then some "Thursday"
  else if d = "周五" then some "Friday"
  else if d = "周六" then some "Saturday"
  else if d = "周日" then some "Sunday"
  else none

/-- Split a character list at every `'-'`, the effect of splitting the date
string on the separators of the `"%Y-%m-%d"` format. -/
def splitDash : List Char → List (List Char)
  | [] => [[]]
  | c :: cs =>
    if c == '-' then [] :: splitDash cs
    else
      match splitDash cs with
      | [] => [[c]]
      | g :: gs => (c :: g) :: gs

/-- Numeric value of a nonempty all-digit character group; `none` otherwise. -/
def digitsToNat : List Char → Option Nat
  | [] => none
  | cs =>
    if cs.all Char.isDigit then
      some (cs.foldl (fun n c => n * 10 + (c.toNat - 48)) 0)
    else none

/-- Gregorian leap-year test, as in CPython's `calendar`/`datetime`. -/
def isLeap (y : Nat) : Bool := (y % 4 == 0 && y % 100 != 0) || y % 400 == 0

/-- Length of month `m` of year `y`. -/
def daysInMonth (y m : Nat) : Nat :=
  if m = 2 then (if isLeap y then 29 else 28)
  else if m = 4 ∨ m = 6 ∨ m = 9 ∨ m = 11 then 30
  else 31

/-- Embedding of `datetime.strptime(s, "%Y-%m-%d")`: exactly three dash-separated
all-digit groups — a 4-digit year (≥ 1), a month of at most two digits in
1..12, a day of at most two digits within the month — and nothing else.
Returns the parsed (year, month, day) or `none` where Python raises. -/
def parseDate (s : String) : Option (Nat × Nat × Nat) :=
  match splitDash s.data with
  | [ys, ms, ds] =>
    match digitsToNat ys, digitsToNat ms, digitsToNat ds with
    | some y, some m, some d =>
      if ys.length == 4 && 1 ≤ y && ms.length ≤ 2 && 1 ≤ m && m ≤ 12 &&
          ds.length ≤ 2 && 1 ≤ d && d ≤ daysInMonth y m then
        some (y, m, d)
      else none
    | _, _, _ => none
  | _ => none

/-- Days in year `y` strictly before month `m`. -/
def daysBeforeMonth (y m : Nat) : Nat :=
  (List.range' 1 (m - 1)).foldl (fun acc k => acc + daysInMonth y k) 0

/-- Proleptic-Gregorian ordinal of a date, with 0001-01-01 as day 1, exactly
CPython's `date.toordinal`. -/
def toOrdinal (y m d : Nat) : Nat :=
  365 * (y - 1) + (y - 1) / 4 - (y - 1) / 100 + (y - 1) / 400 + daysBeforeMonth y m + d

/-- English weekday names in `date.weekday` order (Monday first). -/
def dayNames : List String :=
  ["Monday", "Tuesday", "Wednesday", "Thursday", "Friday", "Saturday", "Sunday"]

/-- Embedding of `.strftime("%A")` on a parsed date: the English weekday name,
via CPython's `(toordinal + 6) % 7` weekday computation. -/
def weekdayName (ymd : Nat × Nat × Nat) : String :=
  dayNames.getD ((toOrdinal ymd.1 ymd.2.1 ymd.2.2 + 6) % 7) ""

/-- The day-match loop of `match_activities`: some available day of the user
is a case-insensitive substring of the activity's weekday name, or is a
Chinese day label whose English equivalent is. -/
def day_matched (u : User) (activity_day : String) : Bool :=
  u.available_days.any fun user_day =>
    strContains (strLower activity_day) (strLower user_day) ||
      match chinese_days user_day with
      | some e => strContains (strLower activity_day) (strLower e)
      | none => false

/-- The per-activity predicate of `match_activities`, for an activity whose
date parses: day-match and (category-match or location-match). Activities
whose date does not parse make the real loop raise before this predicate is
reached; here they are mapped to `false` (the caller establishes all dates
parse before relying on this predicate). -/
def activity_matches (u : User) (a : Activity) : Bool :=
  match parseDate a.date with
  | none => false
  | some ymd =>
    day_matched u (weekdayName ymd) &&
      (u.preferred_categories.contains a.category || a.location == u.location)

/-- The activity loop of `match_activities`: walk the activities in order,
convert each date to its weekday (raising — `Except.error` — on an invalid
date), and keep the activities passing the match rule. -/
def matchLoop (u : User) : List Activity → Except Unit (List Activity)
  | [] => .ok []
  | a :: rest =>
    match parseDate a.date with
    | none => .error ()
    | some ymd =>
      match matchLoop u rest with
      | .error e => .error e
      | .ok tail =>
        .ok (if day_matched u (weekdayName ymd) &&
              (u.preferred_categories.contains a.category || a.location == u.location)
            then a :: tail else tail)

/-- Embedding of `match_activities`: empty result for an unknown user,
otherwise the filtered walk over the activities; reads only, so the state
passes through unchanged. -/
def match_activities (st : AppState) (user_id : Nat) :
    Except Unit (List Activity) × AppState :=
  match st.data.users.find? (fun u => u.id == user_id) with
  | none => (.ok [], st)
  | some user => (matchLoop user st.data.activities, st)

/-- The four outcomes of `register_for_activity`; `success` carries the
activity name interpolated into the success message. -/
inductive RegOutcome where
  | userNotFound : RegOutcome
  | activityNotFound : RegOutcome
  | alreadyRegistered : RegOutcome
  | success : String → RegOutcome
deriving DecidableEq

/-- Embedding of `register_for_activity`: look up the user and the activity,
then in order report user-not-found, activity-not-found, already-registered,
or append the activity id to the user's list and the user id to the
activity's participants, persist, and report success with the activity name. -/
def register_for_activity (st : AppState) (user_id activity_id : Nat) :
    RegOutcome × AppState :=
  match st.data.users.find? (fun u => u.id == user_id) with
  | none => (.userNotFound, st)
  | some user =>
    match st.data.activities.find? (fun a => a.id == activity_id) with
    | none => (.activityNotFound, st)
    | some activity =>
      if activity_id ∈ user.registered_activities then (.alreadyRegistered, st)
      else
        let users' := updateFirst (fun u => u.id == user_id)
          (fun u => { u with registered_activities := u.registered_activities ++ [activity_id] })
          st.data.users
        let activities' := updateFirst (fun a => a.id == activity_id)
          (fun a => { a with participants := a.participants ++ [user_id] })
          st.data.activities
        (.success activity.name, save_data { users := users', activities := activities' })

/-- Embedding of `list_activities`: the full activities collection; reads only. -/
def list_activities (st : AppState) : List Activity × AppState :=
  (st.data.activities, st)

/-- Embedding of `list_user_activities`: the activities whose id appears in
the user's `registered_activities`, empty for an unknown user; reads only. -/
def list_user_activities (st : AppState) (user_id : Nat) : List Activity × AppState :=
  match st.data.users.find? (fun u => u.id == user_id) with
  | none => ([], st)
  | some user =>
    (st.data.activities.filter (fun a => a.id ∈ user.registered_activities), st)

/-- Embedding of the inline cancel-registration handler of the 我的活动 page:
look up the user (`next` with no default — an unknown user raises before any
mutation, modelled as leaving the state unchanged), remove the activity id
from the user's list and the user id from the activity's participants when
present (`list.remove`, guarded by membership), and persist. -/
def unregister_from_activity (st : AppState) (user_id activity_id : Nat) : AppState :=
  match st.data.users.find? (fun u => u.id == user_id) with
  | none => st
  | some _ =>
    let users' := updateFirst (fun u => u.id == user_id)
      (fun u => { u with registered_activities := u.registered_activities.erase activity_id })
      st.data.users
    let activities' := updateFirst (fun a => a.id == activity_id)
      (fun a => { a with participants := a.participants.erase user_id })
      st.data.activities
    save_data { users := users', activities := activities' }

/-- An operation of the registration subsystem: one `register_for_activity`
call or one cancel-registration (unregister) call. -/
inductive RegOp where
  | reg : Nat → Nat → RegOp
  | unreg : Nat → Nat → RegOp
deriving DecidableEq

/-- Apply one registration-subsystem operation to the state. -/
def applyRegOp (st : AppState) : RegOp → AppState
  | .reg uid aid => (register_for_activity st uid aid).2
  | .unreg uid aid => unregister_from_activity st uid aid

/-- Apply a sequence of registration-subsystem operations, left to right. -/
def applyRegOps (st : AppState) (ops : List RegOp) : AppState :=
  ops.foldl applyRegOp st

/-- A creation operation: one `add_activity` call or one `register_user` call. -/
inductive CreateOp where
  | newActivity : String → String → String → String → String → String → CreateOp
  | newUser : String → String → List String → List String → CreateOp
deriving DecidableEq

/-- Apply one creation operation to the state. -/
def applyCreate (st : AppState) : CreateOp → AppState
  | .newActivity n c l d t desc => (add_activity st n c l d t desc).2
  | .newUser n l cats days => (register_user st n l cats days).2

/-- The state of a fresh matcher whose backing file does not exist: empty
collections, nothing persisted yet. -/
def initialState : AppState := { data := { users := [], activities := [] }, file := .absent }

/-- The registration-symmetry invariant of §3 of the design: an activity id is
in a user's `registered_activities` exactly when that user's id is in the
activity's `participants`. -/
def Sym (s : Store) : Prop :=
  ∀ u ∈ s.users, ∀ a ∈ s.activities,
    (a.id ∈ u.registered_activities ↔ u.id ∈ a.participants)

/-- Well-formedness of a store per §3 of the design: entity ids are unique
within each collection, and the registration lists hold no duplicates. -/
def WF (s : Store) : Prop :=
  (s.users.map (fun u => u.id)).Nodup ∧
  (s.activities.map (fun a => a.id)).Nodup ∧
  (∀ u ∈ s.users, u.registered_activities.Nodup) ∧
  (∀ a ∈ s.activities, a.participants.Nodup)

instance (s : Store) : Decidable (Sym s) := by
  unfold Sym; infer_instance

instance (s : Store) : Decidable (WF s) := by
  unfold WF; infer_instance

/-- When nothing in the list satisfies `p`, `updateFirst` changes nothing. -/
theorem updateFirst_id_of_none {α : Type _} {p : α → Bool} {f : α → α} {l : List α}
    (h : l.find? p = none) : updateFirst p f l = l := by
  induction l with
  | nil => rfl
  | cons x xs ih =>
    by_cases hx : p x
    · rw [List.find?_cons_of_pos _ hx] at h; cases h
    · rw [List.find?_cons_of_neg _ hx] at h
      simp [updateFirst, hx, ih h]

/-- When `f` fixes the first element satisfying `p`, `updateFirst` changes
nothing. -/
theorem updateFirst_id_of_fix {α : Type _} {p : α → Bool} {f : α → α} {l : List α} {x : α}
    (h : l.find? p = some x) (hfx : f x = x) : updateFirst p f l = l := by
  induction l with
  | nil => cases h
  | cons y ys ih =>
    by_cases hy : p y
    · rw [List.find?_cons_of_pos _ hy] at h
      injection h with h
      subst h
      simp [updateFirst, hy, hfx]
    · rw [List.find?_cons_of_neg _ hy] at h
      simp [updateFirst, hy, ih h]

/-- Looking up after an update that preserves the predicate finds the updated
element. -/
theorem find_after_updateFirst {α : Type _} (p : α → Bool) (f : α → α) (l : List α)
    (hf : ∀ x, p x = true → p (f x) = true) :
    (updateFirst p f l).find? p = (l.find? p).map f := by
  induction l with
  | nil => rfl
  | cons x xs ih =>
    by_cases hx : p x
    · rw [List.find?_cons_of_pos _ hx]
      simp [updateFirst, hx, List.find?_cons_of_pos _ (hf x hx)]
    · rw [List.find?_cons_of_neg _ hx]
      simp only [updateFirst, hx, if_false, Bool.false_eq_true]
      rw [List.find?_cons_of_neg _ hx, ih]

/-- On a duplicate-free list in which at most one element satisfies `p`,
updating the first match is updating every match. -/
theorem updateFirst_eq_map {α : Type _} {p : α → Bool} {f : α → α} {l : List α}
    (hnd : l.Nodup)
    (huniq : ∀ x ∈ l, ∀ y ∈ l, p x = true → p y = true → x = y) :
    updateFirst p f l = l.map (fun x => if p x then f x else x) := by
  induction l with
  | nil => rfl
  | cons x xs ih =>
    by_cases hx : p x
    · have hxs : ∀ y ∈ xs, ¬ p y = true := by
        intro y hy hpy
        have hxy : x = y := huniq x (by simp) y (by simp [hy]) hx hpy
        exact (List.nodup_cons.mp hnd).1 (hxy ▸ hy)
      have hmap : xs.map (fun y => if p y then f y else y) = xs := by
        have h1 : xs.map (fun y => if p y then f y else y) = xs.map id :=
          List.map_congr_left (fun a ha => by simp [hxs a ha])
        simpa using h1
      simp [updateFirst, hx, hmap]
    · have hrec := ih (List.nodup_cons.mp hnd).2
        (fun a ha b hb hpa hpb => huniq a (by simp [ha]) b (by simp [hb]) hpa hpb)
      simp [updateFirst, hx, hrec]

/-- An option-valued match used in the day loop is `true` exactly when the
option holds a value passing the test. -/
theorem option_match_true {o : Option String} {g : String → Bool} :
    (match o with | some e => g e | none => false) = true ↔
      ∃ e, o = some e ∧ g e = true := by
  cases o <;> simp

/-- When every date in the list parses, the match loop returns exactly the
activities passing the match predicate, in order. -/
theorem matchLoop_ok {u : User} {l : List Activity}
    (h : ∀ a ∈ l, (parseDate a.date).isSome) :
    matchLoop u l = .ok (l.filter (activity_matches u)) := by
  induction l with
  | nil => rfl
  | cons a rest ih =>
    obtain ⟨ymd, hymd⟩ := Option.isSome_iff_exists.mp (h a (by simp))
    have hrest := ih (fun x hx => h x (by simp [hx]))
    simp only [matchLoop, hymd, hrest, List.filter_cons, activity_matches]

/-- When some date in the list fails to parse, the match loop raises. -/
theorem matchLoop_error {u : User} {l : List Activity}
    (h : ∃ a ∈ l, parseDate a.date = none) :
    matchLoop u l = .error () := by
  induction l with
  | nil => simp at h
  | cons a rest ih =>
    cases hpa : parseDate a.date with
    | none => simp [matchLoop, hpa]
    | some ymd =>
      rcases h with ⟨b, hb, hbad⟩
      rcases List.mem_cons.mp hb with rfl | hbrest
      · rw [hpa] at hbad; cases hbad
      · have := ih ⟨b, hbrest, hbad⟩
        simp [matchLoop, hpa, this]

/-- The user record located by `register_for_activity`'s lookup carries the
requested id. -/
theorem find_user_id {l : List User} {uid : Nat} {u : User}
    (h : l.find? (fun x => x.id == uid) = some u) : u.id = uid := by
  simpa using List.find?_some h

/-- The activity record located by the lookup carries the requested id. -/
theorem find_activity_id {l : List Activity} {aid : Nat} {a : Activity}
    (h : l.find? (fun x => x.id == aid) = some a) : a.id = aid := by
  simpa using List.find?_some h

/-- A single `register_for_activity` call preserves well-formedness and the
registration symmetry invariant. -/
theorem register_preserves_inv (st : AppState) (uid aid : Nat)
    (hwf : WF st.data) (hsym : Sym st.data) :
    WF (register_for_activity st uid aid).2.data ∧
      Sym (register_for_activity st uid aid).2.data := by
  obtain ⟨hndu, hnda, hnru, hnpa⟩ := hwf
  cases hu : st.data.users.find? (fun x => x.id == uid) with
  | none =>
    simp only [register_for_activity, hu]
    exact ⟨⟨hndu, hnda, hnru, hnpa⟩, hsym⟩
  | some u =>
    cases ha : st.data.activities.find? (fun x => x.id == aid) with
    | none =>
      simp only [register_for_activity, hu, ha]
      exact ⟨⟨hndu, hnda, hnru, hnpa⟩, hsym⟩
    | some a =>
      by_cases hmem : aid ∈ u.registered_activities
      · simp only [register_for_activity, hu, ha, if_pos hmem]
        exact ⟨⟨hndu, hnda, hnru, hnpa⟩, hsym⟩
      · have humem : u ∈ st.data.users := List.mem_of_find?_eq_some hu
        have huid : u.id = uid := find_user_id hu
        have hamem : a ∈ st.data.activities := List.mem_of_find?_eq_some ha
        have haid : a.id = aid := find_activity_id ha
        have hnotp : uid ∉ a.participants := by
          intro hp
          exact hmem (haid ▸ ((hsym u humem a hamem).mpr (huid ▸ hp)))
        have hequ : updateFirst (fun x => x.id == uid)
            (fun x => { x with registered_activities := x.registered_activities ++ [aid] })
            st.data.users
            = st.data.users.map (fun x => if x.id == uid then
                { x with registered_activities := x.registered_activities ++ [aid] } else x) :=
          updateFirst_eq_map (List.Nodup.of_map _ hndu)
            (fun x hx y hy hpx hpy => List.inj_on_of_nodup_map hndu hx hy (by
              have hx' : x.id = uid := by simpa using hpx
              have hy' : y.id = uid := by simpa using hpy
              simp [hx', hy']))
        have heqa : updateFirst (fun x => x.id == aid)
            (fun x => { x with participants := x.participants ++ [uid] })
            st.data.activities
            = st.data.activities.map (fun x => if x.id == aid then
                { x with participants := x.participants ++ [uid] } else x) :=
          updateFirst_eq_map (List.Nodup.of_map _ hnda)
            (fun x hx y hy hpx hpy => List.inj_on_of_nodup_map hnda hx hy (by
              have hx' : x.id = aid := by simpa using hpx
              have hy' : y.id = aid := by simpa using hpy
              simp [hx', hy']))
        simp only [register_for_activity, hu, ha, if_neg hmem, save_data, hequ, heqa]
        constructor
        · refine ⟨?_, ?_, ?_, ?_⟩
          · rw [List.map_map]
            have hcomp : ((fun x : User => x.id) ∘ (fun x : User => if x.id == uid then
                { x with registered_activities := x.registered_activities ++ [aid] } else x))
                = fun x : User => x.id := by
              funext x
              by_cases h : (x.id == uid) = true
              · rw [Function.comp_apply, if_pos h]
              · rw [Function.comp_apply, if_neg h]
            rw [hcomp]; exact hndu
          · rw [List.map_map]
            have hcomp : ((fun x : Activity => x.id) ∘ (fun x : Activity => if x.id == aid then
                { x with participants := x.participants ++ [uid] } else x))
                = fun x : Activity => x.id := by
              funext x
              by_cases h : (x.id == aid) = true
              · rw [Function.comp_apply, if_pos h]
              · rw [Function.comp_apply, if_neg h]
            rw [hcomp]; exact hnda
          · intro u' hu'
            obtain ⟨x, hx, rfl⟩ := List.mem_map.mp hu'
            by_cases hxid : (x.id == uid) = true
            · have hxu : x = u := List.inj_on_of_nodup_map hndu hx humem
                (by
                  have hxx : x.id = uid := by simpa using hxid
                  simp [hxx, huid])
              subst hxu
              rw [if_pos hxid]
              simp [List.nodup_append, hnru x hx, hmem]
            · rw [if_neg hxid]
              exact hnru x hx
          · intro a' ha'
            obtain ⟨b, hb, rfl⟩ := List.mem_map.mp ha'
            by_cases hbid : (b.id == aid) = true
            · have hba : b = a := List.inj_on_of_nodup_map hnda hb hamem
                (by
                  have hbb : b.id = aid := by simpa using hbid
                  simp [hbb, haid])
              subst hba
              rw [if_pos hbid]
              simp [List.nodup_append, hnpa b hb, hnotp]
            · rw [if_neg hbid]
              exact hnpa b hb
        · intro u' hu' a' ha'
          obtain ⟨x, hx, rfl⟩ := List.mem_map.mp hu'
          obtain ⟨b, hb, rfl⟩ := List.mem_map.mp ha'
          have hs := hsym x hx b hb
          by_cases hxid : (x.id == uid) = true <;> by_cases hbid : (b.id == aid) = true
          · have hxuid : x.id = uid := by simpa using hxid
            have hbaid : b.id = aid := by simpa using hbid
            rw [if_pos hxid, if_pos hbid]
            simp [List.mem_append, hxuid, hbaid]
          · have hbaid : ¬ b.id = aid := by simpa using hbid
            rw [if_pos hxid, if_neg hbid]
            simp [List.mem_append, hbaid, hs]
          · have hxuid : ¬ x.id = uid := by simpa using hxid
            rw [if_neg hxid, if_pos hbid]
            simp [List.mem_append, hxuid, hs]
          · rw [if_neg hxid, if_neg hbid]
            exact hs

/-- A single cancel-registration call preserves well-formedness and the
registration symmetry invariant. -/
theorem unregister_preserves_inv (st : AppState) (uid aid : Nat)
    (hwf : WF st.data) (hsym : Sym st.data) :
    WF (unregister_from_activity st uid aid).data ∧
      Sym (unregister_from_activity st uid aid).data := by
  obtain ⟨hndu, hnda, hnru, hnpa⟩ := hwf
  cases hu : st.data.users.find? (fun x => x.id == uid) with
  | none =>
    simp only [unregister_from_activity, hu]
    exact ⟨⟨hndu, hnda, hnru, hnpa⟩, hsym⟩
  | some u =>
    have hequ : updateFirst (fun x => x.id == uid)
        (fun x => { x with registered_activities := x.registered_activities.erase aid })
        st.data.users
        = st.data.users.map (fun x => if x.id == uid then
            { x with registered_activities := x.registered_activities.erase aid } else x) :=
      updateFirst_eq_map (List.Nodup.of_map _ hndu)
        (fun x hx y hy hpx hpy => List.inj_on_of_nodup_map hndu hx hy (by
          have hx' : x.id = uid := by simpa using hpx
          have hy' : y.id = uid := by simpa using hpy
          simp [hx', hy']))
    have heqa : updateFirst (fun x => x.id == aid)
        (fun x => { x with participants := x.participants.erase uid })
        st.data.activities
        = st.data.activities.map (fun x => if x.id == aid then
            { x with participants := x.participants.erase uid } else x) :=
      updateFirst_eq_map (List.Nodup.of_map _ hnda)
        (fun x hx y hy hpx hpy => List.inj_on_of_nodup_map hnda hx hy (by
          have hx' : x.id = aid := by simpa using hpx
          have hy' : y.id = aid := by simpa using hpy
          simp [hx', hy']))
    simp only [unregister_from_activity, hu, save_data, hequ, heqa]
    constructor
    · refine ⟨?_, ?_, ?_, ?_⟩
      · rw [List.map_map]
        have hcomp : ((fun x : User => x.id) ∘ (fun x : User => if x.id == uid then
            { x with registered_activities := x.registered_activities.erase aid } else x))
            = fun x : User => x.id := by
          funext x
          by_cases h : (x.id == uid) = true
          · rw [Function.comp_apply, if_pos h]
          · rw [Function.comp_apply, if_neg h]
        rw [hcomp]; exact hndu
      · rw [List.map_map]
        have hcomp : ((fun x : Activity => x.id) ∘ (fun x : Activity => if x.id == aid then
            { x with participants := x.participants.erase uid } else x))
            = fun x : Activity => x.id := by
          funext x
          by_cases h : (x.id == aid) = true
          · rw [Function.comp_apply, if_pos h]
          · rw [Function.comp_apply, if_neg h]
        rw [hcomp]; exact hnda
      · intro u' hu'
        obtain ⟨x, hx, rfl⟩ := List.mem_map.mp hu'
        by_cases hxid : (x.id == uid) = true
        · rw [if_pos hxid]
          exact List.Nodup.erase _ (hnru x hx)
        · rw [if_neg hxid]
          exact hnru x hx
      · intro a' ha'
        obtain ⟨b, hb, rfl⟩ := List.mem_map.mp ha'
        by_cases hbid : (b.id == aid) = true
        · rw [if_pos hbid]
          exact List.Nodup.erase _ (hnpa b hb)
        · rw [if_neg hbid]
          exact hnpa b hb
    · intro u' hu' a' ha'
      obtain ⟨x, hx, rfl⟩ := List.mem_map.mp hu'
      obtain ⟨b, hb, rfl⟩ := List.mem_map.mp ha'
      have hs := hsym x hx b hb
      by_cases hxid : (x.id == uid) = true <;> by_cases hbid : (b.id == aid) = true
      · have hxuid : x.id = uid := by simpa using hxid
        have hbaid : b.id = aid := by simpa using hbid
        rw [if_pos hxid, if_pos hbid]
        constructor
        · intro hmem'
          exact absurd rfl ((List.Nodup.mem_erase_iff (hnru x hx)).mp (hbaid ▸ hmem')).1
        · intro hmem'
          exact absurd rfl ((List.Nodup.mem_erase_iff (hnpa b hb)).mp (hxuid ▸ hmem')).1
      · have hbaid : ¬ b.id = aid := by simpa using hbid
        rw [if_pos hxid, if_neg hbid]
        rw [show ({ x with registered_activities := x.registered_activities.erase aid } : User).registered_activities = x.registered_activities.erase aid from rfl]
        rw [List.mem_erase_of_ne hbaid]
        exact hs
      · have hxuid : ¬ x.id = uid := by simpa using hxid
        rw [if_neg hxid, if_pos hbid]
        rw [show ({ b with participants := b.participants.erase uid } : Activity).participants = b.participants.erase uid from rfl]
        rw [List.mem_erase_of_ne hxuid]
        exact hs
      · rw [if_neg hxid, if_neg hbid]
        exact hs

/-- Any sequence of registration-subsystem operations preserves the combined
invariant. -/
theorem applyRegOps_preserves_inv (ops : List RegOp) :
    ∀ st : AppState, WF st.data → Sym st.data →
      WF (applyRegOps st ops).data ∧ Sym (applyRegOps st ops).data := by
  induction ops with
  | nil => exact fun st hwf hsym => ⟨hwf, hsym⟩
  | cons op rest ih =>
    intro st hwf hsym
    have hstep : WF (applyRegOp st op).data ∧ Sym (applyRegOp st op).data := by
      cases op with
      | reg uid aid => exact register_preserves_inv st uid aid hwf hsym
      | unreg uid aid => exact unregister_preserves_inv st uid aid hwf hsym
    exact ih (applyRegOp st op) hstep.1 hstep.2

/-- C8: `load_data` returns the stored document when the backing file exists
and parses; when the file is absent or fails to parse it returns the empty
document `{users: [], activities: []}`, with a warning exactly in the
parse-failure case; being a total function, no exception escapes. -/
theorem load_data_recovers (d : Store) :
    load_data (.saved d) = (d, false) ∧
    load_data .absent = ({ users := [], activities := [] }, false) ∧
    load_data .corrupt = ({ users := [], activities := [] }, true) :=
  ⟨rfl, rfl, rfl⟩

/-- C10: the read operations `match_activities`, `list_activities` and
`list_user_activities` leave the whole application state — in-memory
collections and persisted file — unchanged. -/
theorem read_ops_pure (st : AppState) (uid : Nat) :
    (match_activities st uid).2 = st ∧ (list_activities st).2 = st ∧
      (list_user_activities st uid).2 = st := by
  refine ⟨?_, rfl, ?_⟩
  · unfold match_activities
    cases st.data.users.find? (fun x => x.id == uid) <;> rfl
  · unfold list_user_activities
    cases st.data.users.find? (fun x => x.id == uid) <;> rfl

/-- C5: calling `register_for_activity` with a user id held by no stored user
returns the user-not-found outcome and leaves the entire state — both
collections and the persisted document — unchanged. -/
theorem register_unknown_user_no_mutation (st : AppState) (uid aid : Nat)
    (h : ∀ u ∈ st.data.users, u.id ≠ uid) :
    register_for_activity st uid aid = (RegOutcome.userNotFound, st) := by
  have hf : st.data.users.find? (fun x => x.id == uid) = none :=
    List.find?_eq_none.mpr (fun x hx => by simpa using h x hx)
  simp only [register_for_activity, hf]

/-- Empty state for exercising the user-not-found branch. -/
def c5State : AppState := { data := { users := [], activities := [] }, file := .absent }

/-- Witness for C5 at a concrete empty store. -/
theorem register_unknown_user_no_mutation_witness :
    register_for_activity c5State 1 1 = (RegOutcome.userNotFound, c5State) :=
  register_unknown_user_no_mutation c5State 1 1 (by decide)

/-- C3: `register_for_activity` returns one of exactly four outcomes, checked
in priority order — user-not-found, then activity-not-found, then
already-registered, then success; on success the activity id is appended to
the user's `registered_activities`, the user id to the activity's
`participants`, the store is persisted, and the outcome carries the
activity's name. -/
theorem register_outcomes (st : AppState) (uid aid : Nat) :
    ((register_for_activity st uid aid).1 = .userNotFound ∨
     (register_for_activity st uid aid).1 = .activityNotFound ∨
     (register_for_activity st uid aid).1 = .alreadyRegistered ∨
     ∃ n, (register_for_activity st uid aid).1 = .success n) ∧
    (st.data.users.find? (fun x => x.id == uid) = none →
      register_for_activity st uid aid = (.userNotFound, st)) ∧
    (∀ u, st.data.users.find? (fun x => x.id == uid) = some u →
      st.data.activities.find? (fun x => x.id == aid) = none →
      register_for_activity st uid aid = (.activityNotFound, st)) ∧
    (∀ u a, st.data.users.find? (fun x => x.id == uid) = some u →
      st.data.activities.find? (fun x => x.id == aid) = some a →
      aid ∈ u.registered_activities →
      register_for_activity st uid aid = (.alreadyRegistered, st)) ∧
    (∀ u a, st.data.users.find? (fun x => x.id == uid) = some u →
      st.data.activities.find? (fun x => x.id == aid) = some a →
      aid ∉ u.registered_activities →
      (register_for_activity st uid aid).1 = .success a.name ∧
      (register_for_activity st uid aid).2.data.users.find? (fun x => x.id == uid)
        = some { u with registered_activities := u.registered_activities ++ [aid] } ∧
      (register_for_activity st uid aid).2.data.activities.find? (fun x => x.id == aid)
        = some { a with participants := a.participants ++ [uid] } ∧
      (register_for_activity st uid aid).2.file
        = .saved (register_for_activity st uid aid).2.data) := by
  refine ⟨?_, ?_, ?_, ?_, ?_⟩
  · cases hfu : st.data.users.find? (fun x => x.id == uid) with
    | none => left; simp [register_for_activity, hfu]
    | some u =>
      cases hfa : st.data.activities.find? (fun x => x.id == aid) with
      | none => right; left; simp [register_for_activity, hfu, hfa]
      | some a =>
        by_cases hm : aid ∈ u.registered_activities
        · right; right; left; simp [register_for_activity, hfu, hfa, hm]
        · right; right; right
          exact ⟨a.name, by simp [register_for_activity, hfu, hfa, hm]⟩
  · intro h; simp only [register_for_activity, h]
  · intro u hu ha; simp only [register_for_activity, hu, ha]
  · intro u a hu ha hm; simp only [register_for_activity, hu, ha, if_pos hm]
  · intro u a hu ha hm
    have heq : register_for_activity st uid aid =
        (.success a.name, save_data
          { users := updateFirst (fun x => x.id == uid)
              (fun x => { x with registered_activities := x.registered_activities ++ [aid] })
              st.data.users,
            activities := updateFirst (fun x => x.id == aid)
              (fun x => { x with participants := x.participants ++ [uid] })
              st.data.activities }) := by
      simp only [register_for_activity, hu, ha, if_neg hm]
    rw [heq]
    refine ⟨rfl, ?_, ?_, rfl⟩
    · have hstep := find_after_updateFirst (fun x : User => x.id == uid)
        (fun x => { x with registered_activities := x.registered_activities ++ [aid] })
        st.data.users (fun x hx => hx)
      show (updateFirst (fun x : User => x.id == uid)
          (fun x => { x with registered_activities := x.registered_activities ++ [aid] })
          st.data.users).find? (fun x => x.id == uid) = _
      rw [hstep, hu]
      rfl
    · have hstep := find_after_updateFirst (fun x : Activity => x.id == aid)
        (fun x => { x with participants := x.participants ++ [uid] })
        st.data.activities (fun x hx => hx)
      show (updateFirst (fun x : Activity => x.id == aid)
          (fun x => { x with participants := x.participants ++ [uid] })
          st.data.activities).find? (fun x => x.id == aid) = _
      rw [hstep, ha]
      rfl

/-- Demo user for the C3 witness. -/
def c3User : User :=
  { id := 1, name := "李华", location := "东城区", preferred_categories := ["环保活动"],
    available_days := ["周三"], registered_activities := [] }

/-- Demo activity for the C3 witness. -/
def c3Act : Activity :=
  { id := 1, name := "植树活动", category := "环保活动", location := "东城区",
    date := "2025-01-08", time_range := "09:00-12:00", description := "绿化",
    participants := [] }

/-- Demo state for the C3 witness. -/
def c3State : AppState :=
  { data := { users := [c3User], activities := [c3Act] },
    file := .saved { users := [c3User], activities := [c3Act] } }

/-- Witness for C3: the success branch at a concrete store carries the
activity's name. -/
theorem register_outcomes_witness :
    (register_for_activity c3State 1 1).1 = RegOutcome.success c3Act.name :=
  ((register_outcomes c3State 1 1).2.2.2.2 c3User c3Act (by decide) (by decide) (by decide)).1

/-- C4: from a consistent starting point (no duplicated occurrences and
participant membership only with registration), two successive
`register_for_activity` calls with the same pair leave at most one occurrence
of the activity id in the user's list and of the user id in the participants
list; after a first success, the second call reports already-registered and
changes nothing. -/
theorem register_twice_idempotent (st : AppState) (uid aid : Nat) (u : User) (a : Activity)
    (hu : st.data.users.find? (fun x => x.id == uid) = some u)
    (ha : st.data.activities.find? (fun x => x.id == aid) = some a)
    (hcu : u.registered_activities.count aid ≤ 1)
    (hca : a.participants.count uid ≤ 1)
    (hpair : uid ∈ a.participants → aid ∈ u.registered_activities) :
    (∀ u', (register_for_activity (register_for_activity st uid aid).2 uid aid).2.data.users.find?
        (fun x => x.id == uid) = some u' → u'.registered_activities.count aid ≤ 1) ∧
    (∀ a', (register_for_activity (register_for_activity st uid aid).2 uid aid).2.data.activities.find?
        (fun x => x.id == aid) = some a' → a'.participants.count uid ≤ 1) ∧
    ((register_for_activity st uid aid).1 = .success a.name →
      (register_for_activity (register_for_activity st uid aid).2 uid aid).1 = .alreadyRegistered ∧
      (register_for_activity (register_for_activity st uid aid).2 uid aid).2 =
        (register_for_activity st uid aid).2) := by
  by_cases hm : aid ∈ u.registered_activities
  · have heq1 : register_for_activity st uid aid = (.alreadyRegistered, st) := by
      simp only [register_for_activity, hu, ha, if_pos hm]
    simp only [heq1]
    refine ⟨?_, ?_, ?_⟩
    · intro u' h
      rw [hu] at h
      injection h with h
      subst h
      exact hcu
    · intro a' h
      rw [ha] at h
      injection h with h
      subst h
      exact hca
    · intro hcontra
      exact RegOutcome.noConfusion hcontra
  · have hnp : uid ∉ a.participants := fun hp => hm (hpair hp)
    have heq1 : register_for_activity st uid aid =
        (.success a.name, save_data
          { users := updateFirst (fun x => x.id == uid)
              (fun x => { x with registered_activities := x.registered_activities ++ [aid] })
              st.data.users,
            activities := updateFirst (fun x => x.id == aid)
              (fun x => { x with participants := x.participants ++ [uid] })
              st.data.activities }) := by
      simp only [register_for_activity, hu, ha, if_neg hm]
    have hfu1 : (updateFirst (fun x : User => x.id == uid)
        (fun x => { x with registered_activities := x.registered_activities ++ [aid] })
        st.data.users).find? (fun x => x.id == uid)
        = some { u with registered_activities := u.registered_activities ++ [aid] } := by
      rw [find_after_updateFirst (fun x : User => x.id == uid)
        (fun x => { x with registered_activities := x.registered_activities ++ [aid] })
        st.data.users (fun x hx => hx), hu]
      rfl
    have hfa1 : (updateFirst (fun x : Activity => x.id == aid)
        (fun x => { x with participants := x.participants ++ [uid] })
        st.data.activities).find? (fun x => x.id == aid)
        = some { a with participants := a.participants ++ [uid] } := by
      rw [find_after_updateFirst (fun x : Activity => x.id == aid)
        (fun x => { x with participants := x.participants ++ [uid] })
        st.data.activities (fun x hx => hx), ha]
      rfl
    have hm1 : aid ∈ ({ u with registered_activities := u.registered_activities ++ [aid] } : User).registered_activities := by
      simp
    have heq2 : register_for_activity (register_for_activity st uid aid).2 uid aid
        = (.alreadyRegistered, (register_for_activity st uid aid).2) := by
      rw [heq1]
      simp only [register_for_activity, save_data, hfu1, hfa1, if_pos hm1]
    refine ⟨?_, ?_, ?_⟩
    · intro u' h
      rw [heq2] at h
      simp only [heq1, save_data] at h
      rw [hfu1] at h
      injection h with h
      subst h
      have : u.registered_activities.count aid = 0 := List.count_eq_zero_of_not_mem hm
      simp [List.count_append, this]
    · intro a' h
      rw [heq2] at h
      simp only [heq1, save_data] at h
      rw [hfa1] at h
      injection h with h
      subst h
      have : a.participants.count uid = 0 := List.count_eq_zero_of_not_mem hnp
      simp [List.count_append, this]
    · intro _
      rw [heq2]
      exact ⟨rfl, rfl⟩

/-- Demo user for the C4 witness. -/
def c4User : User :=
  { id := 1, name := "赵雷", location := "西城区", preferred_categories := ["教育支持"],
    available_days := ["周六"], registered_activities := [] }

/-- Demo activity for the C4 witness. -/
def c4Act : Activity :=
  { id := 1, name := "图书整理", category := "教育支持", location := "西城区",
    date := "2025-01-11", time_range := "14:00-16:30", description := "整理书籍",
    participants := [] }

/-- Demo state for the C4 witness. -/
def c4State : AppState :=
  { data := { users := [c4User], activities := [c4Act] },
    file := .saved { users := [c4User], activities := [c4Act] } }

/-- Witness for C4: at a concrete store, the second identical registration
changes nothing. -/
theorem register_twice_idempotent_witness :
    (register_for_activity (register_for_activity c4State 1 1).2 1 1).2 =
      (register_for_activity c4State 1 1).2 :=
  ((register_twice_idempotent c4State 1 1 c4User c4Act (by decide) (by decide) (by decide)
      (by decide) (by decide)).2.2 (by decide)).2

/-- C6: for an existing user and activity, cancel-registration removes the
activity id from the user's list and the user id from the participants list
(first occurrence, a no-op on a side where the id is absent), persists, and
— from a duplicate-free starting point — repeating it changes nothing. -/
theorem unregister_effect (st : AppState) (uid aid : Nat) (u : User) (a : Activity)
    (hu : st.data.users.find? (fun x => x.id == uid) = some u)
    (ha : st.data.activities.find? (fun x => x.id == aid) = some a) :
    (unregister_from_activity st uid aid).data.users.find? (fun x => x.id == uid)
      = some { u with registered_activities := u.registered_activities.erase aid } ∧
    (unregister_from_activity st uid aid).data.activities.find? (fun x => x.id == aid)
      = some { a with participants := a.participants.erase uid } ∧
    (unregister_from_activity st uid aid).file
      = .saved (unregister_from_activity st uid aid).data ∧
    (aid ∉ u.registered_activities →
      u.registered_activities.erase aid = u.registered_activities) ∧
    (uid ∉ a.participants → a.participants.erase uid = a.participants) ∧
    (u.registered_activities.count aid ≤ 1 → a.participants.count uid ≤ 1 →
      unregister_from_activity (unregister_from_activity st uid aid) uid aid
        = unregister_from_activity st uid aid) := by
  have heq : unregister_from_activity st uid aid = save_data
      { users := updateFirst (fun x => x.id == uid)
          (fun x => { x with registered_activities := x.registered_activities.erase aid })
          st.data.users,
        activities := updateFirst (fun x => x.id == aid)
          (fun x => { x with participants := x.participants.erase uid })
          st.data.activities } := by
    simp only [unregister_from_activity, hu]
  have hfu1 : (updateFirst (fun x : User => x.id == uid)
      (fun x => { x with registered_activities := x.registered_activities.erase aid })
      st.data.users).find? (fun x => x.id == uid)
      = some { u with registered_activities := u.registered_activities.erase aid } := by
    rw [find_after_updateFirst (fun x : User => x.id == uid)
      (fun x => { x with registered_activities := x.registered_activities.erase aid })
      st.data.users (fun x hx => hx), hu]
    rfl
  have hfa1 : (updateFirst (fun x : Activity => x.id == aid)
      (fun x => { x with participants := x.participants.erase uid })
      st.data.activities).find? (fun x => x.id == aid)
      = some { a with participants := a.participants.erase uid } := by
    rw [find_after_updateFirst (fun x : Activity => x.id == aid)
      (fun x => { x with participants := x.participants.erase uid })
      st.data.activities (fun x hx => hx), ha]
    rfl
  refine ⟨?_, ?_, ?_, fun h => List.erase_of_not_mem h, fun h => List.erase_of_not_mem h, ?_⟩
  · rw [heq]; exact hfu1
  · rw [heq]; exact hfa1
  · rw [heq]; rfl
  · intro h1 h2
    have hnr : aid ∉ u.registered_activities.erase aid := by
      intro hmem'
      have hc := List.count_erase_self aid u.registered_activities
      have : u.registered_activities.count aid - 1 = 0 := by omega
      rw [this] at hc
      exact (List.count_eq_zero.mp hc) hmem'
    have hnp : uid ∉ a.participants.erase uid := by
      intro hmem'
      have hc := List.count_erase_self uid a.participants
      have : a.participants.count uid - 1 = 0 := by omega
      rw [this] at hc
      exact (List.count_eq_zero.mp hc) hmem'
    have hfixu : (fun x : User => { x with registered_activities := x.registered_activities.erase aid })
        { u with registered_activities := u.registered_activities.erase aid }
        = { u with registered_activities := u.registered_activities.erase aid } := by
      simp [List.erase_of_not_mem hnr]
    have hfixa : (fun x : Activity => { x with participants := x.participants.erase uid })
        { a with participants := a.participants.erase uid }
        = { a with participants := a.participants.erase uid } := by
      simp [List.erase_of_not_mem hnp]
    rw [heq]
    simp only [unregister_from_activity, save_data, hfu1]
    rw [updateFirst_id_of_fix hfu1 hfixu, updateFirst_id_of_fix hfa1 hfixa]

/-- Demo user for the C6 witness: already registered for activity 1. -/
def c6User : User :=
  { id := 1, name := "孙悦", location := "南城区", preferred_categories := ["环保活动"],
    available_days := ["周日"], registered_activities := [1] }

/-- Demo activity for the C6 witness: user 1 participates. -/
def c6Act : Activity :=
  { id := 1, name := "海滩清洁", category := "环保活动", location := "南城区",
    date := "2025-01-12", time_range := "08:00-11:00", description := "清理垃圾",
    participants := [1] }

/-- Demo state for the C6 witness. -/
def c6State : AppState :=
  { data := { users := [c6User], activities := [c6Act] },
    file := .saved { users := [c6User], activities := [c6Act] } }

/-- Witness for C6: at a concrete store, a repeated cancel changes nothing. -/
theorem unregister_effect_witness :
    unregister_from_activity (unregister_from_activity c6State 1 1) 1 1
      = unregister_from_activity c6State 1 1 :=
  (unregister_effect c6State 1 1 c6User c6Act (by decide) (by decide)).2.2.2.2.2
    (by decide) (by decide)

/-- C2: starting from a well-formed symmetric store, any sequence of
register and unregister calls keeps registration membership symmetric: an
activity id is in a user's `registered_activities` exactly when the user's id
is in that activity's `participants` (each single operation is the
one-element sequence). -/
theorem registration_symmetry (st : AppState) (ops : List RegOp)
    (hwf : WF st.data) (hsym : Sym st.data) :
    ∀ u ∈ (applyRegOps st ops).data.users, ∀ a ∈ (applyRegOps st ops).data.activities,
      (a.id ∈ u.registered_activities ↔ u.id ∈ a.participants) :=
  (applyRegOps_preserves_inv ops st hwf hsym).2

/-- Demo user for the C2 witness. -/
def c2User : User :=
  { id := 1, name := "陈静", location := "北城区", preferred_categories := ["关爱老人"],
    available_days := ["周五"], registered_activities := [] }

/-- Demo activity for the C2 witness. -/
def c2Act : Activity :=
  { id := 1, name := "养老院探访", category := "关爱老人", location := "北城区",
    date := "2025-01-10", time_range := "10:00-12:00", description := "探访",
    participants := [] }

/-- Demo state for the C2 witness. -/
def c2State : AppState :=
  { data := { users := [c2User], activities := [c2Act] },
    file := .saved { users := [c2User], activities := [c2Act] } }

/-- Demo operation sequence for the C2 witness: register, cancel, register
again. -/
def c2Ops : List RegOp := [.reg 1 1, .unreg 1 1, .reg 1 1]

/-- The user record present after running the C2 demo sequence. -/
def c2UserAfter : User :=
  { id := 1, name := "陈静", location := "北城区", preferred_categories := ["关爱老人"],
    available_days := ["周五"], registered_activities := [1] }

/-- The activity record present after running the C2 demo sequence. -/
def c2ActAfter : Activity :=
  { id := 1, name := "养老院探访", category := "关爱老人", location := "北城区",
    date := "2025-01-10", time_range := "10:00-12:00", description := "探访",
    participants := [1] }

/-- Witness for C2 at a concrete store and operation sequence. -/
theorem registration_symmetry_witness :
    (c2ActAfter.id ∈ c2UserAfter.registered_activities ↔
      c2UserAfter.id ∈ c2ActAfter.participants) :=
  registration_symmetry c2State c2Ops (by decide) (by decide)
    c2UserAfter (by decide) c2ActAfter (by decide)

/-- Creation operations keep the id sequences of both collections equal to
`1, 2, …, length`. -/
theorem createIds_inv (ops : List CreateOp) :
    ∀ st : AppState,
      st.data.users.map (fun u => u.id) = List.range' 1 st.data.users.length →
      st.data.activities.map (fun a => a.id) = List.range' 1 st.data.activities.length →
      ((ops.foldl applyCreate st).data.users.map (fun u => u.id)
         = List.range' 1 (ops.foldl applyCreate st).data.users.length ∧
       (ops.foldl applyCreate st).data.activities.map (fun a => a.id)
         = List.range' 1 (ops.foldl applyCreate st).data.activities.length) := by
  induction ops with
  | nil => exact fun st hu ha => ⟨hu, ha⟩
  | cons op rest ih =>
    intro st hu ha
    rw [List.foldl_cons]
    apply ih
    · cases op with
      | newActivity n c l d t desc =>
        simpa [applyCreate, add_activity, save_data] using hu
      | newUser n l cats days =>
        simp only [applyCreate, register_user, save_data, List.map_append, List.length_append,
          List.map_cons, List.map_nil, List.length_cons, List.length_nil]
        rw [hu, List.range'_concat]
        simp [Nat.add_comm]
    · cases op with
      | newActivity n c l d t desc =>
        simp only [applyCreate, add_activity, save_data, List.map_append, List.length_append,
          List.map_cons, List.map_nil, List.length_cons, List.length_nil]
        rw [ha, List.range'_concat]
        simp [Nat.add_comm]
      | newUser n l cats days =>
        simpa [applyCreate, register_user, save_data] using ha

/-- C7: starting from the fresh empty store, any sequence of `register_user`
and `add_activity` calls leaves each collection with pairwise-distinct,
strictly increasing ids, and the next id of each kind is the current count
plus one. -/
theorem create_ids_unique_increasing (ops : List CreateOp) :
    ((ops.foldl applyCreate initialState).data.users.map (fun u => u.id)).Pairwise (· < ·) ∧
    ((ops.foldl applyCreate initialState).data.activities.map (fun a => a.id)).Pairwise (· < ·) ∧
    ((ops.foldl applyCreate initialState).data.users.map (fun u => u.id)).Nodup ∧
    ((ops.foldl applyCreate initialState).data.activities.map (fun a => a.id)).Nodup ∧
    (∀ n l cats days, (register_user (ops.foldl applyCreate initialState) n l cats days).1.id
       = (ops.foldl applyCreate initialState).data.users.length + 1) ∧
    (∀ n c l d t desc, (add_activity (ops.foldl applyCreate initialState) n c l d t desc).1.id
       = (ops.foldl applyCreate initialState).data.activities.length + 1) := by
  obtain ⟨hu, ha⟩ := createIds_inv ops initialState rfl rfl
  refine ⟨?_, ?_, ?_, ?_, fun _ _ _ _ => rfl, fun _ _ _ _ _ _ => rfl⟩
  · rw [hu]; exact List.pairwise_lt_range' 1 _
  · rw [ha]; exact List.pairwise_lt_range' 1 _
  · rw [hu]; exact (List.pairwise_lt_range' 1 _).imp (fun h => Nat.ne_of_lt h)
  · rw [ha]; exact (List.pairwise_lt_range' 1 _).imp (fun h => Nat.ne_of_lt h)

/-- C1: for a stored user whose lookup succeeds, when every activity date
parses, `match_activities` returns — in insertion order — exactly the
activities for which day-match holds and category-match or location-match
holds; day-match means some available day of the user is a case-insensitive
substring of the activity's English weekday name, or is one of the Chinese
day labels whose mapped English name is such a substring. -/
theorem match_activities_rule (st : AppState) (uid : Nat) (u : User)
    (hu : st.data.users.find? (fun x => x.id == uid) = some u)
    (hd : ∀ a ∈ st.data.activities, (parseDate a.date).isSome) :
    (match_activities st uid).1 = .ok (st.data.activities.filter (activity_matches u)) ∧
    ∀ a ∈ st.data.activities, ∀ ymd, parseDate a.date = some ymd →
      (a ∈ st.data.activities.filter (activity_matches u) ↔
        ((∃ d ∈ u.available_days,
            strContains (strLower (weekdayName ymd)) (strLower d) = true ∨
            ∃ e, chinese_days d = some e ∧
              strContains (strLower (weekdayName ymd)) (strLower e) = true) ∧
          (a.category ∈ u.preferred_categories ∨ a.location = u.location))) := by
  constructor
  · simp only [match_activities, hu]
    exact matchLoop_ok hd
  · intro a hmem ymd hymd
    rw [List.mem_filter]
    simp only [hmem, true_and]
    simp only [activity_matches, hymd, Bool.and_eq_true, Bool.or_eq_true]
    apply and_congr
    · simp only [day_matched, List.any_eq_true, Bool.or_eq_true, option_match_true]
    · exact or_congr List.elem_iff beq_iff_eq

/-- Demo user for the C1 witness: free on Wednesdays, prefers environmental
activities, lives in 东城区. -/
def c1User : User :=
  { id := 1, name := "张三", location := "东城区", preferred_categories := ["环保活动"],
    available_days := ["周三"], registered_activities := [] }

/-- Wednesday activity matching by category only. -/
def c1ActCat : Activity :=
  { id := 1, name := "公园植树", category := "环保活动", location := "西城区",
    date := "2025-01-08", time_range := "09:00-12:00", description := "植树",
    participants := [] }

/-- Wednesday activity matching by location only. -/
def c1ActLoc : Activity :=
  { id := 2, name := "图书整理", category := "教育支持", location := "东城区",
    date := "2025-01-08", time_range := "14:00-16:30", description := "整理",
    participants := [] }

/-- Wednesday activity matching neither category nor location. -/
def c1ActNone : Activity :=
  { id := 3, name := "探访老人", category := "关爱老人", location := "南城区",
    date := "2025-01-08", time_range := "10:00-12:00", description := "探访",
    participants := [] }

/-- Thursday activity matching category and location but not the day. -/
def c1ActDay : Activity :=
  { id := 4, name := "河道清理", category := "环保活动", location := "东城区",
    date := "2025-01-09", time_range := "08:00-11:00", description := "清理",
    participants := [] }

/-- Demo state for the C1 witness. -/
def c1State : AppState :=
  { data := { users := [c1User], activities := [c1ActCat, c1ActLoc, c1ActNone, c1ActDay] },
    file := .saved { users := [c1User], activities := [c1ActCat, c1ActLoc, c1ActNone, c1ActDay] } }

/-- Witness for C1: on the concrete store, exactly the day-and-category and
day-and-location activities are returned, in insertion order. -/
theorem match_activities_rule_witness :
    (match_activities c1State 1).1 = .ok [c1ActCat, c1ActLoc] :=
  ((match_activities_rule c1State 1 c1User (by decide) (by decide)).1).trans
    (congrArg Except.ok (by decide))

/-- C9: for a stored user whose lookup succeeds, `match_activities` fails
(the weekday-conversion error escapes) exactly when some stored activity has
a date that is not a valid calendar date in year-month-day form; when every
stored date is valid, the conversion never fails and a result list is
returned. -/
theorem match_invalid_date_fails (st : AppState) (uid : Nat) (u : User)
    (hu : st.data.users.find? (fun x => x.id == uid) = some u) :
    ((∃ a ∈ st.data.activities, parseDate a.date = none) →
      (match_activities st uid).1 = .error ()) ∧
    ((∀ a ∈ st.data.activities, (parseDate a.date).isSome) →
      ∃ l, (match_activities st uid).1 = .ok l) := by
  constructor
  · intro h
    simp only [match_activities, hu]
    exact matchLoop_error h
  · intro h
    simp only [match_activities, hu]
    exact ⟨_, matchLoop_ok h⟩

/-- Demo user for the C9 witness. -/
def c9User : User :=
  { id := 1, name := "刘洋", location := "东城区", preferred_categories := ["环保活动"],
    available_days := ["周三"], registered_activities := [] }

/-- Activity with an invalid calendar date (February 30th). -/
def c9ActBad : Activity :=
  { id := 1, name := "植树活动", category := "环保活动", location := "东城区",
    date := "2025-02-30", time_range := "09:00-12:00", description := "植树",
    participants := [] }

/-- Demo state for the C9 witness. -/
def c9State : AppState :=
  { data := { users := [c9User], activities := [c9ActBad] },
    file := .saved { users := [c9User], activities := [c9ActBad] } }

/-- Witness for C9: the invalid date 2025-02-30 makes the match fail. -/
theorem match_invalid_date_fails_witness :
    (match_activities c9State 1).1 = .error () :=
  (match_invalid_date_fails c9State 1 c9User (by decide)).1 (by decide)

end VolunteerApp
